import Mathlib

/-!
# Verification of the ShopWatch store-monitoring backend

A shallow embedding, in Lean 4, of the report-generation core of the
ShopWatch backend (`app/services/report_calculator.py`, `app/api/report.py`,
`app/models.py`) together with proofs about it.

Modelling conventions:
* UTC instants and local instants are rational numbers of seconds since the
  Unix epoch (1970-01-01 00:00:00, a Thursday, so Python `weekday()` of the
  epoch day is 3).  Times of day are rational seconds in `[0, 86400)`;
  `time(23,59,59)` is `86399`.
* `pytz` timezones are modelled as fixed UTC offsets in seconds; the library
  lookup `pytz.timezone : str -> tzinfo` (which raises `UnknownTimeZoneError`
  on unknown names) is passed in as a function `String → Option ℚ`, and
  `datetime.astimezone` becomes addition of the offset.
* SQLAlchemy tables are lists of row structures inside a `DB` record; the
  `order_by` clauses become an insertion sort on the filtered rows.
* Python floats are modelled as exact rationals, `math.ceil` as `Rat.ceil`.
* Python exceptions are modelled with `Option`/`Except` at the boundaries
  where the source observably raises or catches them.
-/

attribute [local semireducible] Rat.mul Rat.inv Rat.add Rat.sub

namespace StoreMonitoring

/-- Embedding of `StoreStatusEnum` from `app/models.py` (members `active`,
`inactive`). -/
inductive StoreStatusEnum where
  | active
  | inactive
deriving DecidableEq, Repr

/-- Embedding of `ReportStatusEnum` from `app/models.py`, lines 16–19.  The
source enum declares exactly the members `running`, `complete`, `failed`
(values "Running", "Complete", "Failed"); it has no `pending` member. -/
inductive ReportStatusEnum where
  | running
  | complete
  | failed
deriving DecidableEq, Repr

/-- Python attribute lookup `ReportStatusEnum.<name>` on the enum class of
`app/models.py`: `none` models the `AttributeError` raised when the member
does not exist. -/
def ReportStatusEnum.fromName : String → Option ReportStatusEnum
  | "running" => some .running
  | "complete" => some .complete
  | "failed" => some .failed
  | _ => none

/-- The `.value` of an enum member, as declared in `app/models.py`. -/
def ReportStatusEnum.value : ReportStatusEnum → String
  | .running => "Running"
  | .complete => "Complete"
  | .failed => "Failed"

/-- A row of the `store_status` table (`StoreStatus` in `app/models.py`):
one timestamped active/inactive poll for a store.  `get_status_for_period`
also builds transient `StoreStatus` objects of this shape. -/
structure Observation where
  store_id : String
  timestamp_utc : ℚ
  status : StoreStatusEnum
deriving DecidableEq, Repr

/-- A row of the `business_hours` table (`BusinessHours` in
`app/models.py`): local start/end times of one business-hours slot on one
day of the week. -/
structure BusinessHoursRow where
  store_id : String
  day_of_week : Nat
  start_time_local : ℚ
  end_time_local : ℚ
deriving DecidableEq, Repr

/-- A row of the `store_timezone` table (`StoreTimezone` in
`app/models.py`). -/
structure StoreTimezoneRow where
  store_id : String
  timezone_str : String
deriving DecidableEq, Repr

/-- The read-only database visible to the report calculator. -/
structure DB where
  store_status : List Observation
  business_hours : List BusinessHoursRow
  store_timezone : List StoreTimezoneRow

/-- One `{'start': ..., 'end': ...}` slot of the business-hours dict built by
`get_store_config` (field `stop` stands for the Python key `'end'`, a
reserved word in Lean). -/
structure Slot where
  start : ℚ
  stop : ℚ
deriving DecidableEq, Repr

/-- The `business_hours` dict built by `get_store_config`: an
insertion-ordered map from `day_of_week` to the list of slots of that day. -/
abbrev Schedule := List (Nat × List Slot)

/-- `dt_local.time()` as seconds in `[0, 86400)`: the fractional part of the
day containing the instant. -/
def timeOfDay (t : ℚ) : ℚ := t - 86400 * (Rat.floor (t / 86400))

/-- `dt_local.weekday()` (Monday = 0): the epoch day 1970-01-01 is a
Thursday, weekday 3. -/
def dayOfWeek (t : ℚ) : Nat := ((Rat.floor (t / 86400) + 3) % 7).toNat

/-- The body of the slot loop of `is_within_business_hours`
(`report_calculator.py` lines 44–54): half-open `start ≤ t < end` for a
forward slot, wrap-around `t ≥ start or t < end` otherwise. -/
def slotMember (tod : ℚ) (s : Slot) : Bool :=
  if s.start < s.stop then decide (s.start ≤ tod ∧ tod < s.stop)
  else decide (tod ≥ s.start ∨ tod < s.stop)

/-- Embedding of `is_within_business_hours(dt_local, business_hours)`
(`report_calculator.py` lines 38–55). -/
def is_within_business_hours (dt_local : ℚ) (business_hours : Schedule) : Bool :=
  match business_hours.lookup (dayOfWeek dt_local) with
  | none => false
  | some slots => slots.any (slotMember (timeOfDay dt_local))

/-- The minute-stepping while-loop of `calculate_overlap_minutes`, with an
explicit fuel argument bounding the number of iterations (the loop advances
by at least one minute per iteration, so `⌈(stop − cur)/60⌉` iterations
always suffice). -/
def scanOverlap (bh : Schedule) (stop : ℚ) : ℚ → Nat → ℚ
  | _, 0 => 0
  | cur, n + 1 =>
    if cur < stop then
      let segEnd := min (cur + 60) stop
      (if is_within_business_hours cur bh then (segEnd - cur) / 60 else 0)
        + scanOverlap bh stop segEnd n
    else 0

/-- Fuel sufficient for `scanOverlap` to run the loop to completion:
`⌈(le − ls)/60⌉` as a natural number. -/
def overlapFuel (ls le : ℚ) : Nat := (Rat.ceil ((le - ls) / 60)).toNat

/-- Embedding of `calculate_overlap_minutes(start_dt_utc, end_dt_utc,
business_hours, timezone_obj)` (`report_calculator.py` lines 57–73): convert
both endpoints to local time, return `0` when the interval is empty,
otherwise walk it in one-minute steps clipped to the interval end, adding a
step's duration in minutes whenever its start instant is within business
hours. -/
def calculate_overlap_minutes (start_dt_utc end_dt_utc : ℚ) (business_hours : Schedule)
    (off : ℚ) : ℚ :=
  let ls := start_dt_utc + off
  let le := end_dt_utc + off
  if le ≤ ls then 0 else scanOverlap business_hours le ls (overlapFuel ls le)

/-! ## Timeline builder (`get_status_for_period`) -/

/-- Insert an observation into a list sorted by the comparator `le`. -/
def insertSorted (le : Observation → Observation → Bool) (o : Observation) :
    List Observation → List Observation
  | [] => [o]
  | x :: xs => if le o x then o :: x :: xs else x :: insertSorted le o xs

/-- Insertion sort by the comparator `le`; models an SQL `ORDER BY` on the
filtered rows. -/
def sortBy (le : Observation → Observation → Bool) : List Observation → List Observation
  | [] => []
  | x :: xs => insertSorted le x (sortBy le xs)

/-- Ascending `ORDER BY timestamp_utc`. -/
def obsTsLe (a b : Observation) : Bool := decide (a.timestamp_utc ≤ b.timestamp_utc)

/-- Descending `ORDER BY timestamp_utc DESC`. -/
def obsTsGe (a b : Observation) : Bool := decide (b.timestamp_utc ≤ a.timestamp_utc)

/-- The first query of `get_status_for_period` (`report_calculator.py` lines
77–81): observations of the store with `start ≤ timestamp_utc ≤ end`,
ascending by timestamp. -/
def get_observations_in_window (db : DB) (sid : String) (s e : ℚ) : List Observation :=
  sortBy obsTsLe (db.store_status.filter
    (fun o => o.store_id == sid && decide (s ≤ o.timestamp_utc) && decide (o.timestamp_utc ≤ e)))

/-- The second query of `get_status_for_period` (lines 82–85): the latest
observation of the store strictly before the period start
(`order_by(...desc()).first()`). -/
def get_latest_before (db : DB) (sid : String) (s : ℚ) : Option Observation :=
  (sortBy obsTsGe (db.store_status.filter
    (fun o => o.store_id == sid && decide (o.timestamp_utc < s)))).head?

/-- Embedding of `get_status_for_period(db, store_id, start_time_utc,
end_time_utc)` (`report_calculator.py` lines 76–95): fetch the in-window
observations ascending; if a prior observation exists and (the window is
empty or its first timestamp differs from the period start), prepend a
synthetic observation at exactly the period start carrying the prior
status. -/
def get_status_for_period (db : DB) (sid : String) (start_time_utc end_time_utc : ℚ) :
    List Observation :=
  match get_latest_before db sid start_time_utc,
      get_observations_in_window db sid start_time_utc end_time_utc with
  | none, observations => observations
  | some prior, [] => [⟨sid, start_time_utc, prior.status⟩]
  | some prior, o :: rest =>
    if o.timestamp_utc = start_time_utc then o :: rest
    else ⟨sid, start_time_utc, prior.status⟩ :: o :: rest

/-! ## Uptime/downtime accumulator -/

/-- The checkpoint loop of `calculate_uptime_downtime_for_period`
(`report_calculator.py` lines 130–155), including the tail segment after the
last checkpoint: state is the last processed timestamp and the status
currently in force (`None` before any checkpoint has been seen). -/
def accumulate_segments (bh : Schedule) (off ps pe : ℚ) :
    List Observation → ℚ → Option StoreStatusEnum → ℚ × ℚ
  | [], last, cur =>
    if last < pe then
      match cur with
      | some .active => (calculate_overlap_minutes last pe bh off, 0)
      | some .inactive => (0, calculate_overlap_minutes last pe bh off)
      | none => (0, 0)
    else (0, 0)
  | o :: rest, last, cur =>
    let seg : ℚ × ℚ :=
      if last < o.timestamp_utc then
        match cur with
        | some st =>
          let os := max last ps
          let oe := min o.timestamp_utc pe
          if os < oe then
            match st with
            | .active => (calculate_overlap_minutes os oe bh off, 0)
            | .inactive => (0, calculate_overlap_minutes os oe bh off)
          else (0, 0)
        | none => (0, 0)
      else (0, 0)
    let tailp := accumulate_segments bh off ps pe rest o.timestamp_utc (some o.status)
    (seg.1 + tailp.1, seg.2 + tailp.2)

/-- Embedding of `calculate_uptime_downtime_for_period(db, store_id,
period_start_utc, period_end_utc, timezone_obj, business_hours)`
(`report_calculator.py` lines 98–155).  An empty timeline yields the full
business-hours overlap as uptime and zero downtime; otherwise a first
checkpoint at exactly the period start seeds the in-force status, and each
consecutive segment's overlap is attributed by the status in force. -/
def calculate_uptime_downtime_for_period (db : DB) (sid : String)
    (period_start_utc period_end_utc : ℚ) (off : ℚ) (business_hours : Schedule) : ℚ × ℚ :=
  match get_status_for_period db sid period_start_utc period_end_utc with
  | [] => (calculate_overlap_minutes period_start_utc period_end_utc business_hours off, 0)
  | o :: rest =>
    if o.timestamp_utc = period_start_utc then
      accumulate_segments business_hours off period_start_utc period_end_utc rest
        period_start_utc (some o.status)
    else
      accumulate_segments business_hours off period_start_utc period_end_utc (o :: rest)
        period_start_utc none

/-! ## Store configuration resolver (`get_store_config`) -/

/-- `America/Chicago` (the hard-coded default of `get_store_config`) as a
fixed UTC−06:00 offset in seconds. -/
def defaultTimezoneOffset : ℚ := -21600

/-- The fallback schedule synthesized by `get_store_config` when a store has
no business-hours rows: a `00:00:00`–`23:59:59` slot for each of the seven
days (`for day in range(7)`). -/
def defaultSchedule : Schedule :=
  [(0, [⟨0, 86399⟩]), (1, [⟨0, 86399⟩]), (2, [⟨0, 86399⟩]), (3, [⟨0, 86399⟩]),
   (4, [⟨0, 86399⟩]), (5, [⟨0, 86399⟩]), (6, [⟨0, 86399⟩])]

/-- `business_hours.setdefault(day, []).append(slot)` on an
insertion-ordered dict. -/
def addSlot (m : Schedule) (d : Nat) (s : Slot) : Schedule :=
  match m with
  | [] => [(d, [s])]
  | (k, v) :: rest => if k = d then (k, v ++ [s]) :: rest else (k, v) :: addSlot rest d s

/-- Embedding of `get_store_config(db, store_id)` (`report_calculator.py`
lines 11–36).  `pytzLookup` models the `pytz.timezone` name resolution
(`none` = `UnknownTimeZoneError`, on which the code falls back to the
default timezone); absence of a timezone row likewise yields the default.
No business-hours rows yields the synthesized full-day schedule. -/
def get_store_config (pytzLookup : String → Option ℚ) (db : DB) (sid : String) :
    ℚ × Schedule :=
  let offset :=
    match (db.store_timezone.filter (fun r => r.store_id == sid)).head? with
    | some row =>
      match pytzLookup row.timezone_str with
      | some o => o
      | none => defaultTimezoneOffset
    | none => defaultTimezoneOffset
  let bhRecords := db.business_hours.filter (fun r => r.store_id == sid)
  let schedule :=
    match bhRecords with
    | [] => defaultSchedule
    | _ =>
      bhRecords.foldl
        (fun m r => addSlot m r.day_of_week ⟨r.start_time_local, r.end_time_local⟩) []
  (offset, schedule)

/-! ## Report aggregator (`generate_report_for_store`) -/

/-- One row of the final report, as the dict built by
`generate_report_for_store` (`report_calculator.py` lines 176–184). -/
structure StoreReport where
  store_id : String
  uptime_last_hour : ℤ
  downtime_last_hour : ℤ
  uptime_last_day : ℤ
  downtime_last_day : ℤ
  uptime_last_week : ℤ
  downtime_last_week : ℤ
deriving DecidableEq, Repr

/-- Embedding of `generate_report_for_store(db, store_id,
current_timestamp_utc)` (`report_calculator.py` lines 158–184): resolve the
config once, run the accumulator over the trailing hour/day/week windows,
convert with `math.ceil` (hour windows stay in minutes, day/week windows are
divided by 60 into hours first). -/
def generate_report_for_store (pytzLookup : String → Option ℚ) (db : DB) (sid : String)
    (current_timestamp_utc : ℚ) : StoreReport :=
  let cfg := get_store_config pytzLookup db sid
  let p1 := calculate_uptime_downtime_for_period db sid (current_timestamp_utc - 3600)
    current_timestamp_utc cfg.1 cfg.2
  let p24 := calculate_uptime_downtime_for_period db sid (current_timestamp_utc - 86400)
    current_timestamp_utc cfg.1 cfg.2
  let p7 := calculate_uptime_downtime_for_period db sid (current_timestamp_utc - 604800)
    current_timestamp_utc cfg.1 cfg.2
  { store_id := sid
    uptime_last_hour := Rat.ceil p1.1
    downtime_last_hour := Rat.ceil p1.2
    uptime_last_day := Rat.ceil (p24.1 / 60)
    downtime_last_day := Rat.ceil (p24.2 / 60)
    uptime_last_week := Rat.ceil (p7.1 / 60)
    downtime_last_week := Rat.ceil (p7.2 / 60) }

/-! ## Job manager (`app/api/report.py`) -/

/-- One entry of the in-memory `reports_cache`: the Python dict
`{"status": ReportStatusEnum, "data": List[Dict] | Dict[str,str] | None}`;
`Sum.inl` is a successful row list, `Sum.inr` an error descriptor. -/
structure ReportEntry where
  status : ReportStatusEnum
  data : Option (List StoreReport ⊕ String)
deriving DecidableEq

/-- The global `reports_cache` dict, keyed by report id. -/
abbrev ReportsCache := List (String × ReportEntry)

/-- `reports_cache[report_id]["status"] = st` (the entry is assumed present;
on a missing key the Python code would raise `KeyError`). -/
def cacheSetStatus (c : ReportsCache) (rid : String) (st : ReportStatusEnum) : ReportsCache :=
  c.map (fun kv => if kv.1 = rid then (kv.1, { kv.2 with status := st }) else kv)

/-- `reports_cache[report_id]["data"] = d`. -/
def cacheSetData (c : ReportsCache) (rid : String) (d : List StoreReport ⊕ String) :
    ReportsCache :=
  c.map (fun kv => if kv.1 = rid then (kv.1, { kv.2 with data := some d }) else kv)

/-- Embedding of the background task `_generate_report_task`
(`app/api/report.py` lines 29–59).  The `try` body first marks the job
`running` and then computes the per-store rows; `outcome` is the result of
that computation, `Except.error` standing for any exception raised inside
the `try` block.  On success the rows are attached and the status set to
`complete`; the `except Exception` handler sets the status to `failed` and
attaches an error descriptor. -/
def generate_report_task (rid : String) (outcome : Except String (List StoreReport))
    (cache : ReportsCache) : ReportsCache :=
  let c1 := cacheSetStatus cache rid .running
  match outcome with
  | .ok rows => cacheSetStatus (cacheSetData c1 rid (.inl rows)) rid .complete
  | .error e => cacheSetData (cacheSetStatus c1 rid .failed) rid (.inr e)

/-- `db.query(func.max(StoreStatus.timestamp_utc)).scalar()`: `none` when
the `store_status` table is empty. -/
def maxTimestamp (db : DB) : Option ℚ := (db.store_status.map (·.timestamp_utc)).max?

/-- Observable outcome of a `POST /trigger_report` request. -/
inductive TriggerOutcome where
  | httpNotFound
  | attributeError (missing : String)
  | ok (report_id : String) (status_value : String)
deriving DecidableEq, Repr

/-- Embedding of the `trigger_report` endpoint (`app/api/report.py` lines
63–94): query the maximum observation timestamp (404 when there is none),
then record `{"status": ReportStatusEnum.pending, "data": None}` in the
cache and return the id with `ReportStatusEnum.pending.value`.  Both uses of
the `pending` member go through `ReportStatusEnum.fromName "pending"`, whose
`none` case models the `AttributeError` that Python raises because
`app/models.py` declares no such member. -/
def trigger_report (db : DB) (report_id : String) (cache : ReportsCache) :
    TriggerOutcome × ReportsCache :=
  match maxTimestamp db with
  | none => (.httpNotFound, cache)
  | some _ =>
    match ReportStatusEnum.fromName "pending" with
    | none => (.attributeError "pending", cache)
    | some st =>
      (.ok report_id st.value, cache ++ [(report_id, ⟨st, none⟩)])

/-! ## Specification-side segment sum for the accumulator -/

/-- The sum of the per-segment `calculate_overlap_minutes` results over the
consecutive checkpoints of a timeline, from a given first checkpoint
timestamp through the period end. -/
def windowCoverage (bh : Schedule) (off pe : ℚ) : ℚ → List Observation → ℚ
  | t0, [] => calculate_overlap_minutes t0 pe bh off
  | t0, o :: rest =>
    calculate_overlap_minutes t0 o.timestamp_utc bh off + windowCoverage bh off pe o.timestamp_utc rest

/-- A concrete database exercising the rounding path: the store is open
around the clock (each day carries the degenerate wrap-around slot
`start = end = 00:00:00`, which every instant satisfies), went inactive
7152 seconds (= 119.2 minutes) into the trailing day window ending at
`now = 86400`, and had been active since before that window. -/
def db9 : DB :=
  ⟨[⟨"s", -1000, .active⟩, ⟨"s", 7152, .inactive⟩],
   [⟨"s", 0, 0, 0⟩, ⟨"s", 1, 0, 0⟩, ⟨"s", 2, 0, 0⟩, ⟨"s", 3, 0, 0⟩,
    ⟨"s", 4, 0, 0⟩, ⟨"s", 5, 0, 0⟩, ⟨"s", 6, 0, 0⟩], []⟩

/-! ## Arithmetic bridges between the executable `Rat.floor`/`Rat.ceil`
and Mathlib's `⌊·⌋`/`⌈·⌉` -/

theorem ratFloor_eq_intFloor (q : ℚ) : (Rat.floor q : ℤ) = ⌊q⌋ := by
  rw [Rat.floor_def, Rat.floor_def']

theorem ratCeil_eq_intCeil (q : ℚ) : (Rat.ceil q : ℤ) = ⌈q⌉ := by
  unfold Rat.ceil
  by_cases h : q.den = 1
  · rw [if_pos h]
    conv_rhs => rw [← Rat.coe_int_num_of_den_eq_one h]
    rw [Int.ceil_intCast]
  · rw [if_neg h]
    have hfl : q.num / (q.den : ℤ) = ⌊q⌋ := Rat.floor_def.symm
    rw [hfl]
    have hne : (⌊q⌋ : ℚ) ≠ q := by
      intro hq
      exact h (hq ▸ Rat.den_intCast ⌊q⌋)
    have hlt : (⌊q⌋ : ℚ) < q := lt_of_le_of_ne (Int.floor_le q) hne
    have h1 : ⌊q⌋ + 1 ≤ ⌈q⌉ := by
      have : (⌊q⌋ : ℚ) < (⌈q⌉ : ℚ) := lt_of_lt_of_le hlt (Int.le_ceil q)
      exact_mod_cast Int.add_one_le_of_lt (by exact_mod_cast this)
    exact le_antisymm h1 (Int.ceil_le_floor_add_one q)

theorem timeOfDay_eq (t : ℚ) : timeOfDay t = 86400 * Int.fract (t / 86400) := by
  unfold timeOfDay
  rw [ratFloor_eq_intFloor, Int.fract]
  ring

theorem timeOfDay_nonneg (t : ℚ) : 0 ≤ timeOfDay t := by
  rw [timeOfDay_eq]
  have := Int.fract_nonneg (t / 86400)
  positivity

theorem timeOfDay_lt (t : ℚ) : timeOfDay t < 86400 := by
  rw [timeOfDay_eq]
  have h := Int.fract_lt_one (t / 86400)
  nlinarith [Int.fract_nonneg (t / 86400)]

theorem dayOfWeek_lt (t : ℚ) : dayOfWeek t < 7 := by
  unfold dayOfWeek
  have h1 : (0 : ℤ) ≤ (Rat.floor (t / 86400) + 3) % 7 :=
    Int.emod_nonneg _ (by norm_num)
  have h2 : (Rat.floor (t / 86400) + 3) % 7 < 7 :=
    Int.emod_lt_of_pos _ (by norm_num)
  omega

/-! ## Properties of the minute scan -/

theorem scanOverlap_of_ge (bh : Schedule) (stop cur : ℚ) (n : Nat) (h : stop ≤ cur) :
    scanOverlap bh stop cur n = 0 := by
  cases n with
  | zero => rfl
  | succ n => simp [scanOverlap, not_lt.2 h]

theorem scanOverlap_bounds (bh : Schedule) (stop : ℚ) :
    ∀ (n : Nat) (cur : ℚ), cur ≤ stop →
      0 ≤ scanOverlap bh stop cur n ∧ scanOverlap bh stop cur n ≤ (stop - cur) / 60 := by
  intro n
  induction n with
  | zero =>
    intro cur hc
    constructor
    · exact le_refl 0
    · have : (0 : ℚ) ≤ stop - cur := by linarith
      positivity
  | succ n ih =>
    intro cur hc
    by_cases hlt : cur < stop
    · have hse1 : cur < min (cur + 60) stop := lt_min (by linarith) hlt
      have hse2 : min (cur + 60) stop ≤ stop := min_le_right _ _
      obtain ⟨ih1, ih2⟩ := ih (min (cur + 60) stop) hse2
      have hcontrib1 : (0 : ℚ) ≤
          (if is_within_business_hours cur bh then (min (cur + 60) stop - cur) / 60 else 0) := by
        split
        · have : (0 : ℚ) ≤ min (cur + 60) stop - cur := by linarith
          positivity
        · exact le_refl 0
      have hcontrib2 :
          (if is_within_business_hours cur bh then (min (cur + 60) stop - cur) / 60 else 0)
            ≤ (min (cur + 60) stop - cur) / 60 := by
        split
        · exact le_refl _
        · have : (0 : ℚ) ≤ min (cur + 60) stop - cur := by linarith
          positivity
      constructor
      · simp only [scanOverlap, if_pos hlt]
        linarith
      · simp only [scanOverlap, if_pos hlt]
        have : (min (cur + 60) stop - cur) / 60 + (stop - min (cur + 60) stop) / 60
            = (stop - cur) / 60 := by ring
        linarith
    · rw [scanOverlap, if_neg hlt]
      constructor
      · exact le_refl 0
      · have : (0 : ℚ) ≤ stop - cur := by linarith
        positivity

theorem scanOverlap_all_member (bh : Schedule) (stop : ℚ) :
    ∀ (n : Nat) (cur : ℚ), cur ≤ stop → stop - cur ≤ 60 * n →
      (∀ u, cur ≤ u → u < stop → is_within_business_hours u bh = true) →
      scanOverlap bh stop cur n = (stop - cur) / 60 := by
  intro n
  induction n with
  | zero =>
    intro cur hc hfuel _
    have : stop = cur := by push_cast at hfuel; linarith
    rw [this]
    simp [scanOverlap]
  | succ n ih =>
    intro cur hc hfuel hmem
    by_cases hlt : cur < stop
    · have hmemcur : is_within_business_hours cur bh = true := hmem cur (le_refl cur) hlt
      rw [scanOverlap]
      simp only [if_pos hlt, hmemcur, if_true]
      by_cases hstep : cur + 60 ≤ stop
      · rw [min_eq_left hstep]
        have htail : scanOverlap bh stop (cur + 60) n = (stop - (cur + 60)) / 60 := by
          apply ih (cur + 60) hstep
          · push_cast at hfuel ⊢; linarith
          · intro u hu1 hu2
            exact hmem u (by linarith) hu2
        rw [htail]
        ring
      · rw [min_eq_right (by linarith)]
        rw [scanOverlap_of_ge bh stop stop n (le_refl stop)]
        ring
    · have : stop = cur := le_antisymm (not_lt.1 hlt) hc
      rw [this]
      simp [scanOverlap]

theorem scanOverlap_all_nonmember (bh : Schedule) (stop : ℚ) :
    ∀ (n : Nat) (cur : ℚ),
      (∀ u, cur ≤ u → u < stop → is_within_business_hours u bh = false) →
      scanOverlap bh stop cur n = 0 := by
  intro n
  induction n with
  | zero => intro cur _; rfl
  | succ n ih =>
    intro cur hmem
    by_cases hlt : cur < stop
    · have hmemcur : is_within_business_hours cur bh = false := hmem cur (le_refl cur) hlt
      rw [scanOverlap]
      simp only [if_pos hlt, hmemcur, Bool.false_eq_true, if_false, zero_add]
      apply ih
      intro u hu1 hu2
      have hcur : cur < min (cur + 60) stop := lt_min (by linarith) hlt
      exact hmem u (by linarith) hu2
    · rw [scanOverlap, if_neg hlt]

theorem overlapFuel_sufficient (ls le : ℚ) (h : ls < le) :
    le - ls ≤ 60 * (overlapFuel ls le : ℚ) := by
  unfold overlapFuel
  rw [ratCeil_eq_intCeil]
  set x : ℚ := (le - ls) / 60 with hx
  have hxpos : 0 < x := by
    rw [hx]
    have : (0 : ℚ) < le - ls := by linarith
    positivity
  have hceil_pos : 0 < ⌈x⌉ := Int.ceil_pos.2 hxpos
  have htonat : ((⌈x⌉.toNat : ℕ) : ℚ) = (⌈x⌉ : ℚ) := by
    exact_mod_cast Int.toNat_of_nonneg hceil_pos.le
  have hle : x ≤ (⌈x⌉ : ℚ) := Int.le_ceil x
  have : le - ls = 60 * x := by rw [hx]; ring
  rw [this, htonat]
  linarith

/-! ## Properties of `calculate_overlap_minutes` -/

theorem calculate_overlap_minutes_of_ge (s e : ℚ) (bh : Schedule) (off : ℚ) (h : e ≤ s) :
    calculate_overlap_minutes s e bh off = 0 := by
  unfold calculate_overlap_minutes
  rw [if_pos (by linarith)]

theorem calculate_overlap_minutes_bounds (s e : ℚ) (bh : Schedule) (off : ℚ) (h : s ≤ e) :
    0 ≤ calculate_overlap_minutes s e bh off ∧
      calculate_overlap_minutes s e bh off ≤ (e - s) / 60 := by
  unfold calculate_overlap_minutes
  by_cases hc : e + off ≤ s + off
  · rw [if_pos hc]
    constructor
    · exact le_refl 0
    · have : (0 : ℚ) ≤ e - s := by linarith
      positivity
  · rw [if_neg hc]
    obtain ⟨h1, h2⟩ := scanOverlap_bounds bh (e + off) (overlapFuel (s + off) (e + off))
      (s + off) (by linarith [not_le.1 hc])
    refine ⟨h1, ?_⟩
    have : (e + off - (s + off)) / 60 = (e - s) / 60 := by ring
    linarith [this ▸ h2]

theorem calculate_overlap_minutes_all_member (s e : ℚ) (bh : Schedule) (off : ℚ)
    (hse : s ≤ e)
    (hmem : ∀ u, s + off ≤ u → u < e + off → is_within_business_hours u bh = true) :
    calculate_overlap_minutes s e bh off = (e - s) / 60 := by
  unfold calculate_overlap_minutes
  by_cases hc : e + off ≤ s + off
  · rw [if_pos hc]
    have : e = s := le_antisymm (by linarith) hse
    rw [this]
    ring
  · rw [if_neg hc]
    have hlt : s + off < e + off := not_le.1 hc
    rw [scanOverlap_all_member bh (e + off) (overlapFuel (s + off) (e + off)) (s + off)
      (by linarith) (overlapFuel_sufficient (s + off) (e + off) hlt) hmem]
    ring

theorem calculate_overlap_minutes_all_nonmember (s e : ℚ) (bh : Schedule) (off : ℚ)
    (hmem : ∀ u, s + off ≤ u → u < e + off → is_within_business_hours u bh = false) :
    calculate_overlap_minutes s e bh off = 0 := by
  unfold calculate_overlap_minutes
  by_cases hc : e + off ≤ s + off
  · rw [if_pos hc]
  · rw [if_neg hc]
    exact scanOverlap_all_nonmember bh (e + off) _ (s + off) hmem

/-! ## Lemmas about the timeline builder -/

theorem mem_insertSorted (le : Observation → Observation → Bool) (o a : Observation) :
    ∀ l : List Observation, a ∈ insertSorted le o l ↔ a = o ∨ a ∈ l := by
  intro l
  induction l with
  | nil => simp [insertSorted]
  | cons x xs ih =>
    by_cases h : le o x
    · simp [insertSorted, h]
    · simp only [insertSorted, if_neg h, List.mem_cons, ih]
      tauto

theorem mem_sortBy (le : Observation → Observation → Bool) (a : Observation) :
    ∀ l : List Observation, a ∈ sortBy le l ↔ a ∈ l := by
  intro l
  induction l with
  | nil => simp [sortBy]
  | cons x xs ih =>
    simp only [sortBy, mem_insertSorted, ih, List.mem_cons]

theorem pairwise_insertSorted_ts (o : Observation) :
    ∀ l : List Observation,
      l.Pairwise (fun a b => a.timestamp_utc ≤ b.timestamp_utc) →
      (insertSorted obsTsLe o l).Pairwise (fun a b => a.timestamp_utc ≤ b.timestamp_utc) := by
  intro l
  induction l with
  | nil => intro _; simp [insertSorted]
  | cons x xs ih =>
    intro h
    rw [List.pairwise_cons] at h
    obtain ⟨hx, hxs⟩ := h
    by_cases hle : obsTsLe o x
    · have hole : o.timestamp_utc ≤ x.timestamp_utc := by
        simpa [obsTsLe] using hle
      rw [insertSorted, if_pos hle]
      rw [List.pairwise_cons]
      constructor
      · intro b hb
        rcases List.mem_cons.1 hb with hbx | hbxs
        · exact hbx ▸ hole
        · exact le_trans hole (hx b hbxs)
      · rw [List.pairwise_cons]
        exact ⟨hx, hxs⟩
    · have hgt : x.timestamp_utc ≤ o.timestamp_utc := by
        have h' : ¬ o.timestamp_utc ≤ x.timestamp_utc := by
          simpa [obsTsLe] using hle
        linarith [lt_of_not_le h']
      rw [insertSorted, if_neg hle]
      rw [List.pairwise_cons]
      constructor
      · intro b hb
        rcases (mem_insertSorted obsTsLe o b xs).1 hb with hbo | hbxs
        · exact hbo ▸ hgt
        · exact hx b hbxs
      · exact ih hxs

theorem pairwise_sortBy_ts (l : List Observation) :
    (sortBy obsTsLe l).Pairwise (fun a b => a.timestamp_utc ≤ b.timestamp_utc) := by
  induction l with
  | nil => simp [sortBy]
  | cons x xs ih => exact pairwise_insertSorted_ts x (sortBy obsTsLe xs) ih

theorem mem_window_bounds (db : DB) (sid : String) (s e : ℚ) (o : Observation)
    (h : o ∈ get_observations_in_window db sid s e) :
    o.store_id = sid ∧ s ≤ o.timestamp_utc ∧ o.timestamp_utc ≤ e := by
  unfold get_observations_in_window at h
  rw [mem_sortBy] at h
  rw [List.mem_filter] at h
  obtain ⟨_, hcond⟩ := h
  simp only [Bool.and_eq_true, beq_iff_eq, decide_eq_true_eq] at hcond
  exact ⟨hcond.1.1, hcond.1.2, hcond.2⟩

theorem pairwise_window (db : DB) (sid : String) (s e : ℚ) :
    (get_observations_in_window db sid s e).Pairwise
      (fun a b => a.timestamp_utc ≤ b.timestamp_utc) :=
  pairwise_sortBy_ts _

theorem mem_timeline_bounds (db : DB) (sid : String) (ps pe : ℚ) (hse : ps ≤ pe)
    (o : Observation) (h : o ∈ get_status_for_period db sid ps pe) :
    ps ≤ o.timestamp_utc ∧ o.timestamp_utc ≤ pe := by
  unfold get_status_for_period at h
  cases hprior : get_latest_before db sid ps with
  | none =>
    rw [hprior] at h
    dsimp only at h
    have := mem_window_bounds db sid ps pe o h
    exact ⟨this.2.1, this.2.2⟩
  | some prior =>
    rw [hprior] at h
    cases hwin : get_observations_in_window db sid ps pe with
    | nil =>
      rw [hwin] at h
      dsimp only at h
      simp only [List.mem_singleton] at h
      rw [h]
      exact ⟨le_refl ps, hse⟩
    | cons w rest =>
      rw [hwin] at h
      dsimp only at h
      by_cases heq : w.timestamp_utc = ps
      · rw [if_pos heq] at h
        have := mem_window_bounds db sid ps pe o (hwin ▸ h)
        exact ⟨this.2.1, this.2.2⟩
      · rw [if_neg heq] at h
        rcases List.mem_cons.1 h with hsynth | hmem
        · rw [hsynth]
          exact ⟨le_refl ps, hse⟩
        · have := mem_window_bounds db sid ps pe o (hwin ▸ hmem)
          exact ⟨this.2.1, this.2.2⟩

theorem pairwise_timeline (db : DB) (sid : String) (ps pe : ℚ) :
    (get_status_for_period db sid ps pe).Pairwise
      (fun a b => a.timestamp_utc ≤ b.timestamp_utc) := by
  unfold get_status_for_period
  cases hprior : get_latest_before db sid ps with
  | none => exact pairwise_window db sid ps pe
  | some prior =>
    cases hwin : get_observations_in_window db sid ps pe with
    | nil => simp
    | cons w rest =>
      dsimp only
      by_cases heq : w.timestamp_utc = ps
      · rw [if_pos heq]
        exact hwin ▸ pairwise_window db sid ps pe
      · rw [if_neg heq]
        rw [List.pairwise_cons]
        constructor
        · intro b hb
          have := mem_window_bounds db sid ps pe b (hwin ▸ hb)
          exact this.2.1
        · exact hwin ▸ pairwise_window db sid ps pe

/-! ## The accumulator as a segment sum -/

theorem accumulate_segments_eq_coverage (bh : Schedule) (off ps pe : ℚ) :
    ∀ (l : List Observation) (last : ℚ) (st : StoreStatusEnum),
      ps ≤ last → last ≤ pe →
      (∀ o ∈ l, o.timestamp_utc ≤ pe) →
      (∀ o ∈ l, last ≤ o.timestamp_utc) →
      l.Pairwise (fun a b => a.timestamp_utc ≤ b.timestamp_utc) →
      (accumulate_segments bh off ps pe l last (some st)).1
          + (accumulate_segments bh off ps pe l last (some st)).2
        = windowCoverage bh off pe last l := by
  intro l
  induction l with
  | nil =>
    intro last st hpl hle _ _ _
    rw [windowCoverage]
    by_cases hlt : last < pe
    · cases st with
      | active => simp [accumulate_segments, if_pos hlt]
      | inactive => simp [accumulate_segments, if_pos hlt]
    · have heq : last = pe := le_antisymm hle (not_lt.1 hlt)
      rw [heq]
      rw [calculate_overlap_minutes_of_ge pe pe bh off (le_refl pe)]
      cases st with
      | active => simp [accumulate_segments, lt_irrefl]
      | inactive => simp [accumulate_segments, lt_irrefl]
  | cons o rest ih =>
    intro last st hpl hle hmem hlast hpw
    have hots : last ≤ o.timestamp_utc := hlast o (List.mem_cons_self o rest)
    have hope : o.timestamp_utc ≤ pe := hmem o (List.mem_cons_self o rest)
    rw [List.pairwise_cons] at hpw
    obtain ⟨hofirst, hpwrest⟩ := hpw
    have htail := ih o.timestamp_utc o.status (le_trans hpl hots) hope
      (fun b hb => hmem b (List.mem_cons_of_mem o hb))
      (fun b hb => hofirst b hb) hpwrest
    rw [windowCoverage]
    by_cases hlt : last < o.timestamp_utc
    · have hos : max last ps = last := max_eq_left hpl
      have hoe : min o.timestamp_utc pe = o.timestamp_utc := min_eq_left hope
      have hoslt : max last ps < min o.timestamp_utc pe := by rw [hos, hoe]; exact hlt
      cases st with
      | active =>
        simp only [accumulate_segments, if_pos hlt, if_pos hoslt, hos, hoe]
        rw [← htail]
        ring
      | inactive =>
        simp only [accumulate_segments, if_pos hlt, if_pos hoslt, hos, hoe]
        rw [← htail]
        ring
    · have heq : last = o.timestamp_utc := le_antisymm hots (not_lt.1 hlt)
      have hzero : calculate_overlap_minutes last o.timestamp_utc bh off = 0 :=
        calculate_overlap_minutes_of_ge _ _ bh off (le_of_eq heq.symm)
      simp only [accumulate_segments, if_neg hlt, hzero]
      rw [← htail]
      ring

/-! ## Lemmas about the reports cache -/

theorem lookup_cacheSetStatus (c : ReportsCache) (rid : String) (st : ReportStatusEnum) :
    (cacheSetStatus c rid st).lookup rid
      = (c.lookup rid).map (fun en => { en with status := st }) := by
  induction c with
  | nil => rfl
  | cons kv rest ih =>
    obtain ⟨k, en⟩ := kv
    by_cases h : k = rid
    · subst h
      simp only [cacheSetStatus, List.map_cons, if_pos rfl]
      simp [List.lookup]
    · simp only [cacheSetStatus, List.map_cons, if_neg h]
      have hbeq : (rid == k) = false := by
        simp [Ne.symm h]
      simp only [List.lookup, hbeq]
      exact ih

theorem lookup_cacheSetData (c : ReportsCache) (rid : String)
    (d : List StoreReport ⊕ String) :
    (cacheSetData c rid d).lookup rid
      = (c.lookup rid).map (fun en => { en with data := some d }) := by
  induction c with
  | nil => rfl
  | cons kv rest ih =>
    obtain ⟨k, en⟩ := kv
    by_cases h : k = rid
    · subst h
      simp only [cacheSetData, List.map_cons, if_pos rfl]
      simp [List.lookup]
    · simp only [cacheSetData, List.map_cons, if_neg h]
      have hbeq : (rid == k) = false := by
        simp [Ne.symm h]
      simp only [List.lookup, hbeq]
      exact ih

/-! ## Claims -/

/-- C1: the claim states that every job created by `trigger_report` when at
least one observation exists is recorded with status pending and its id
returned with status "pending".  The code cannot do this: `app/models.py`
declares `ReportStatusEnum` with only `running`, `complete` and `failed`, so
the attribute access `ReportStatusEnum.pending` in `trigger_report` raises
`AttributeError` before anything is recorded or returned.  This theorem
evaluates the endpoint at a concrete database holding one observation: the
outcome is the `AttributeError` for the missing member `pending`, and the
cache is left unchanged (no job is ever recorded). -/
theorem claim1_trigger_report_pending_attribute_error :
    trigger_report (⟨[⟨"s", 0, .active⟩], [], []⟩ : DB) "job-1" []
      = (.attributeError "pending", []) := by decide

/-- C3 (counterexample): the claim states that with no business-hours rules
the resolved schedule makes membership true for every local instant.  The
synthesized slot is `00:00:00`–`23:59:59` and membership is half-open, so
the local instant with time of day exactly `23:59:59` (second `86399` of the
epoch day) is not a member. -/
theorem claim3_counterexample :
    is_within_business_hours 86399
      (get_store_config (fun _ => none) (⟨[], [], []⟩ : DB) "s").2 = false := by decide

/-- C3 (amended): for a store with no business-hours rules, the resolved
schedule makes the membership predicate true for every local instant whose
time of day is strictly before `23:59:59`; only the final second of each day
falls outside the synthesized `00:00:00`–`23:59:59` slots. -/
theorem claim3_default_schedule_membership (pz : String → Option ℚ) (db : DB)
    (sid : String) (t : ℚ)
    (hrules : db.business_hours.filter (fun r => r.store_id == sid) = [])
    (ht : timeOfDay t < 86399) :
    is_within_business_hours t (get_store_config pz db sid).2 = true := by
  have hsched : (get_store_config pz db sid).2 = defaultSchedule := by
    unfold get_store_config
    rw [hrules]
  rw [hsched]
  have hday : dayOfWeek t < 7 := dayOfWeek_lt t
  have hlookup : defaultSchedule.lookup (dayOfWeek t) = some [⟨0, 86399⟩] := by
    have hcases : dayOfWeek t = 0 ∨ dayOfWeek t = 1 ∨ dayOfWeek t = 2 ∨ dayOfWeek t = 3 ∨
        dayOfWeek t = 4 ∨ dayOfWeek t = 5 ∨ dayOfWeek t = 6 := by omega
    rcases hcases with h | h | h | h | h | h | h <;> rw [h] <;> rfl
  unfold is_within_business_hours
  rw [hlookup]
  simp only [List.any_cons, List.any_nil, Bool.or_false]
  rw [slotMember]
  rw [if_pos (by norm_num : (Slot.mk 0 86399).start < (Slot.mk 0 86399).stop)]
  simp only [decide_eq_true_eq]
  exact ⟨timeOfDay_nonneg t, ht⟩

/-- C3 (witness): the amended theorem applied to a concrete configless store
and the local instant `100` seconds into the epoch day. -/
theorem claim3_witness :
    is_within_business_hours 100
      (get_store_config (fun _ => none) (⟨[], [], []⟩ : DB) "s").2 = true :=
  claim3_default_schedule_membership (fun _ => none) (⟨[], [], []⟩ : DB) "s" 100
    rfl (by decide)

/-- C7: for a UTC interval `[start, end)` with `start ≤ end`: an empty
interval yields `0`; if every local instant of the interval lies inside one
open (`start < end`) slot of the schedule, `calculate_overlap_minutes`
returns exactly the interval's length in minutes; if no local instant of the
interval is within business hours it returns `0`. -/
theorem claim7_overlap_exact_cases (s e : ℚ) (bh : Schedule) (off : ℚ) (hse : s ≤ e) :
    (s = e → calculate_overlap_minutes s e bh off = 0) ∧
      ((∀ u, s + off ≤ u → u < e + off →
          ∃ slots slot, bh.lookup (dayOfWeek u) = some slots ∧ slot ∈ slots ∧
            slot.start < slot.stop ∧ slot.start ≤ timeOfDay u ∧ timeOfDay u < slot.stop) →
        calculate_overlap_minutes s e bh off = (e - s) / 60) ∧
      ((∀ u, s + off ≤ u → u < e + off → is_within_business_hours u bh = false) →
        calculate_overlap_minutes s e bh off = 0) := by
  refine ⟨?_, ?_, ?_⟩
  · intro h
    rw [h]
    exact calculate_overlap_minutes_of_ge e e bh off (le_refl e)
  · intro hmem
    apply calculate_overlap_minutes_all_member s e bh off hse
    intro u h1 h2
    obtain ⟨slots, slot, hlk, hmem', hopen, h3, h4⟩ := hmem u h1 h2
    unfold is_within_business_hours
    rw [hlk]
    rw [List.any_eq_true]
    refine ⟨slot, hmem', ?_⟩
    rw [slotMember, if_pos hopen]
    simp only [decide_eq_true_eq]
    exact ⟨h3, h4⟩
  · exact calculate_overlap_minutes_all_nonmember s e bh off

/-- C7 (witness): the three cases at concrete inputs — an empty interval; a
one-minute interval lying inside the open slot `00:00:00`–`23:59:59` of the
epoch day (a Thursday, weekday 3), giving exactly one minute; and an
interval against an empty schedule, giving `0`. -/
theorem claim7_witness :
    calculate_overlap_minutes 5 5 [] 0 = 0 ∧
      calculate_overlap_minutes 0 60 [(3, [⟨0, 86399⟩])] 0 = (60 - 0) / 60 ∧
      calculate_overlap_minutes 0 60 [] 0 = 0 := by
  have hfloor : ∀ u : ℚ, 0 ≤ u → u < 60 → Rat.floor (u / 86400) = 0 := by
    intro u h1 h2
    rw [ratFloor_eq_intFloor]
    rw [Int.floor_eq_zero_iff]
    constructor
    · positivity
    · rw [div_lt_one (by norm_num)]
      linarith
  refine ⟨(claim7_overlap_exact_cases 5 5 [] 0 (le_refl 5)).1 rfl,
    (claim7_overlap_exact_cases 0 60 [(3, [⟨0, 86399⟩])] 0 (by norm_num)).2.1 ?_,
    (claim7_overlap_exact_cases 0 60 [] 0 (by norm_num)).2.2 ?_⟩
  · intro u h1 h2
    rw [zero_add] at h1
    rw [add_zero] at h2
    have hfl := hfloor u h1 h2
    have hd : dayOfWeek u = 3 := by
      unfold dayOfWeek
      rw [hfl]
      decide
    have htod : timeOfDay u = u := by
      unfold timeOfDay
      rw [hfl]
      push_cast
      ring
    refine ⟨[⟨0, 86399⟩], ⟨0, 86399⟩, ?_, List.mem_singleton.2 rfl, by norm_num, ?_, ?_⟩
    · rw [hd]
      rfl
    · rw [htod]
      exact h1
    · rw [htod]
      show u < (86399 : ℚ)
      linarith
  · intro u _ _
    rfl

/-- C8: membership for an overnight slot (`start ≥ end`) holds exactly when
the time of day is at or after the start or strictly before the end; for the
slot `22:00`–`06:00` (seconds `79200`–`21600`): `23:30` is a member, `12:00`
is not, `05:59` is a member, `06:00` is not. -/
theorem claim8_overnight_membership (t : ℚ) (s : Slot) (hs : s.stop ≤ s.start) :
    (is_within_business_hours t [(dayOfWeek t, [s])] = true ↔
        (s.start ≤ timeOfDay t ∨ timeOfDay t < s.stop)) ∧
      is_within_business_hours 84600 [(3, [⟨79200, 21600⟩])] = true ∧
      is_within_business_hours 43200 [(3, [⟨79200, 21600⟩])] = false ∧
      is_within_business_hours 21540 [(3, [⟨79200, 21600⟩])] = true ∧
      is_within_business_hours 21600 [(3, [⟨79200, 21600⟩])] = false := by
  refine ⟨?_, by decide, by decide, by decide, by decide⟩
  unfold is_within_business_hours
  have hlk : List.lookup (dayOfWeek t) [(dayOfWeek t, [s])] = some [s] := by
    simp [List.lookup]
  rw [hlk]
  simp only [List.any_cons, List.any_nil, Bool.or_false]
  rw [slotMember, if_neg (not_lt.2 hs)]
  simp only [decide_eq_true_eq, ge_iff_le]

/-- C8 (witness): the overnight characterization applied to the slot
`22:00`–`06:00` at the instant `23:30` of the epoch day, together with the
four concrete membership checks. -/
theorem claim8_witness :
    (is_within_business_hours 84600 [(dayOfWeek 84600, [⟨79200, 21600⟩])] = true ↔
        ((79200 : ℚ) ≤ timeOfDay 84600 ∨ timeOfDay 84600 < 21600)) ∧
      is_within_business_hours 84600 [(3, [⟨79200, 21600⟩])] = true ∧
      is_within_business_hours 43200 [(3, [⟨79200, 21600⟩])] = false ∧
      is_within_business_hours 21540 [(3, [⟨79200, 21600⟩])] = true ∧
      is_within_business_hours 21600 [(3, [⟨79200, 21600⟩])] = false :=
  claim8_overnight_membership 84600 ⟨79200, 21600⟩ (by norm_num)

/-- C10: for every UTC interval with `start ≤ end`, every schedule and every
timezone offset, the overlap result is between `0` and the interval's total
length in minutes. -/
theorem claim10_overlap_bounded (s e : ℚ) (bh : Schedule) (off : ℚ) (hse : s ≤ e) :
    0 ≤ calculate_overlap_minutes s e bh off ∧
      calculate_overlap_minutes s e bh off ≤ (e - s) / 60 :=
  calculate_overlap_minutes_bounds s e bh off hse

/-- C10 (witness): the bound at a concrete 90-second interval over the
default schedule. -/
theorem claim10_witness :
    0 ≤ calculate_overlap_minutes 0 90 defaultSchedule 0 ∧
      calculate_overlap_minutes 0 90 defaultSchedule 0 ≤ (90 - 0) / 60 :=
  claim10_overlap_bounded 0 90 defaultSchedule 0 (by norm_num)

/-- C2 (counterexample): the claim states that uptime + downtime always
equals the business-hours overlap of the whole window as computed by
`calculate_overlap_minutes`.  With the slot `00:00:30`–`00:01:00`, a prior
active observation and an inactive observation at second 30 of the window
`[0, 120]`, the accumulator's segments scan from their own start instants
(30 and 0), while the whole-window scan tests membership only at seconds 0
and 60: uptime + downtime = 0 + 1 = 1, but the whole-window overlap is 0. -/
theorem claim2_counterexample :
    (calculate_uptime_downtime_for_period
          (⟨[⟨"s", -100, .active⟩, ⟨"s", 30, .inactive⟩], [], []⟩ : DB)
          "s" 0 120 0 [(3, [⟨30, 60⟩])]).1
        + (calculate_uptime_downtime_for_period
          (⟨[⟨"s", -100, .active⟩, ⟨"s", 30, .inactive⟩], [], []⟩ : DB)
          "s" 0 120 0 [(3, [⟨30, 60⟩])]).2
      ≠ calculate_overlap_minutes 0 120 [(3, [⟨30, 60⟩])] 0 := by decide

/-- C2 (amended): for every store and window with `period_start ≤
period_end`, uptime + downtime equals the sum of the per-segment
`calculate_overlap_minutes` results over the timeline's consecutive
checkpoints, from the first checkpoint's timestamp through `period_end`
(when the timeline is empty this is the whole-window overlap).  Because the
one-minute scan aligns its steps to each sub-interval's own start instant,
this segment sum need not equal a single whole-window run of the
calculator and the claim as worded fails (see the counterexample). -/
theorem claim2_uptime_plus_downtime_eq_segment_coverage (db : DB) (sid : String)
    (ps pe off : ℚ) (bh : Schedule) (hse : ps ≤ pe) :
    (calculate_uptime_downtime_for_period db sid ps pe off bh).1
        + (calculate_uptime_downtime_for_period db sid ps pe off bh).2
      = match get_status_for_period db sid ps pe with
        | [] => calculate_overlap_minutes ps pe bh off
        | o :: rest => windowCoverage bh off pe o.timestamp_utc rest := by
  cases htl : get_status_for_period db sid ps pe with
  | nil =>
    unfold calculate_uptime_downtime_for_period
    rw [htl]
    norm_num
  | cons o rest =>
    have hbounds := mem_timeline_bounds db sid ps pe hse
    have hofirst : ps ≤ o.timestamp_utc ∧ o.timestamp_utc ≤ pe :=
      hbounds o (htl ▸ List.mem_cons_self o rest)
    have hrest_le : ∀ b ∈ rest, b.timestamp_utc ≤ pe := by
      intro b hb
      exact (hbounds b (htl ▸ List.mem_cons_of_mem o hb)).2
    have hrest_ge : ∀ b ∈ rest, ps ≤ b.timestamp_utc := by
      intro b hb
      exact (hbounds b (htl ▸ List.mem_cons_of_mem o hb)).1
    have hpw : (o :: rest).Pairwise (fun a b => a.timestamp_utc ≤ b.timestamp_utc) :=
      htl ▸ pairwise_timeline db sid ps pe
    rw [List.pairwise_cons] at hpw
    obtain ⟨hohead, hpwrest⟩ := hpw
    unfold calculate_uptime_downtime_for_period
    rw [htl]
    dsimp only
    by_cases heq : o.timestamp_utc = ps
    · rw [if_pos heq]
      rw [accumulate_segments_eq_coverage bh off ps pe rest ps o.status (le_refl ps) hse
        hrest_le (fun b hb => heq ▸ hohead b hb) hpwrest]
      rw [heq]
    · rw [if_neg heq]
      rw [accumulate_segments]
      have hseg : (if ps < o.timestamp_utc then
          match (none : Option StoreStatusEnum) with
          | some st =>
            if max ps ps < min o.timestamp_utc pe then
              match st with
              | .active => (calculate_overlap_minutes (max ps ps)
                  (min o.timestamp_utc pe) bh off, (0 : ℚ))
              | .inactive => ((0 : ℚ), calculate_overlap_minutes (max ps ps)
                  (min o.timestamp_utc pe) bh off)
            else (0, 0)
          | none => ((0 : ℚ), (0 : ℚ))
          else ((0 : ℚ), (0 : ℚ))) = ((0 : ℚ), (0 : ℚ)) := by
        split <;> rfl
      rw [hseg]
      dsimp only
      simp only [zero_add]
      rw [accumulate_segments_eq_coverage bh off ps pe rest o.timestamp_utc o.status
        hofirst.1 hofirst.2 hrest_le (fun b hb => hohead b hb) hpwrest]

/-- C2 (witness): the amended equation at a concrete store with a single
in-window observation at second 30 of the window `[0, 120]` over the default
schedule. -/
theorem claim2_witness :
    (calculate_uptime_downtime_for_period (⟨[⟨"s", 30, .active⟩], [], []⟩ : DB)
          "s" 0 120 0 defaultSchedule).1
        + (calculate_uptime_downtime_for_period (⟨[⟨"s", 30, .active⟩], [], []⟩ : DB)
          "s" 0 120 0 defaultSchedule).2
      = match get_status_for_period (⟨[⟨"s", 30, .active⟩], [], []⟩ : DB) "s" 0 120 with
        | [] => calculate_overlap_minutes 0 120 defaultSchedule 0
        | o :: rest => windowCoverage defaultSchedule 0 120 o.timestamp_utc rest :=
  claim2_uptime_plus_downtime_eq_segment_coverage
    (⟨[⟨"s", 30, .active⟩], [], []⟩ : DB) "s" 0 120 0 defaultSchedule (by norm_num)

/-- C4 (counterexample): the claim states that a non-empty timeline's first
entry has timestamp ≤ period_start.  For a store whose only observation lies
strictly inside the window (no observation before it), the timeline is that
single in-window observation, whose timestamp 30 exceeds the period start
0. -/
theorem claim4_counterexample :
    (get_status_for_period (⟨[⟨"s", 30, .active⟩], [], []⟩ : DB) "s" 0 120).head?.map
        (fun o => o.timestamp_utc) = some 30 ∧ ¬ ((30 : ℚ) ≤ 0) := by
  constructor
  · decide
  · norm_num

/-- C4 (amended): the timeline is ordered by timestamp and every entry lies
in `[period_start, period_end]`.  When an observation strictly before
`period_start` exists, the first entry's timestamp equals `period_start`
exactly, and the synthetic entry (carrying the prior status at exactly
`period_start`) is prepended if and only if the in-window fetch is empty or
its first timestamp differs from `period_start`.  When no prior observation
exists the timeline is exactly the in-window fetch, whose first timestamp
may exceed `period_start`. -/
theorem claim4_timeline_shape (db : DB) (sid : String) (ps pe : ℚ) (hse : ps ≤ pe) :
    (get_status_for_period db sid ps pe).Pairwise
        (fun a b => a.timestamp_utc ≤ b.timestamp_utc) ∧
      (∀ o ∈ get_status_for_period db sid ps pe,
        ps ≤ o.timestamp_utc ∧ o.timestamp_utc ≤ pe) ∧
      (∀ p, get_latest_before db sid ps = some p →
        (get_status_for_period db sid ps pe).head?.map (fun o => o.timestamp_utc)
          = some ps) ∧
      (get_latest_before db sid ps = none →
        get_status_for_period db sid ps pe = get_observations_in_window db sid ps pe) ∧
      (∀ p, get_latest_before db sid ps = some p →
        (get_status_for_period db sid ps pe
            = ⟨sid, ps, p.status⟩ :: get_observations_in_window db sid ps pe
          ↔ (get_observations_in_window db sid ps pe = [] ∨
            (get_observations_in_window db sid ps pe).head?.map
              (fun o => o.timestamp_utc) ≠ some ps))) := by
  refine ⟨pairwise_timeline db sid ps pe, mem_timeline_bounds db sid ps pe hse, ?_, ?_, ?_⟩
  · intro p hp
    unfold get_status_for_period
    rw [hp]
    cases hwin : get_observations_in_window db sid ps pe with
    | nil => rfl
    | cons w rest =>
      dsimp only
      by_cases heq : w.timestamp_utc = ps
      · rw [if_pos heq]
        simp [heq]
      · rw [if_neg heq]
        rfl
  · intro hp
    unfold get_status_for_period
    rw [hp]
  · intro p hp
    unfold get_status_for_period
    rw [hp]
    cases hwin : get_observations_in_window db sid ps pe with
    | nil => simp
    | cons w rest =>
      dsimp only
      by_cases heq : w.timestamp_utc = ps
      · rw [if_pos heq]
        constructor
        · intro habs
          exact absurd (congrArg List.length habs) (by simp)
        · intro hcond
          rcases hcond with hnil | hts
          · exact absurd hnil (by simp)
          · exact absurd (by simp [heq]) hts
      · rw [if_neg heq]
        constructor
        · intro _
          right
          simp only [List.head?_cons, Option.map_some]
          intro habs
          exact heq (Option.some.inj habs)
        · intro _
          rfl

/-- C4 (witness): for a store with an observation before the window and one
inside it, the amended theorem yields that the timeline's first timestamp is
exactly the period start `0`. -/
theorem claim4_witness :
    (get_status_for_period (⟨[⟨"s", -100, .active⟩, ⟨"s", 30, .inactive⟩], [], []⟩ : DB)
        "s" 0 120).head?.map (fun o => o.timestamp_utc) = some 0 :=
  (claim4_timeline_shape (⟨[⟨"s", -100, .active⟩, ⟨"s", 30, .inactive⟩], [], []⟩ : DB)
      "s" 0 120 (by norm_num)).2.2.1 ⟨"s", -100, .active⟩ (by decide)

/-- C5: the background task never leaves an existing job in status
`running`: whatever the outcome of the per-store computation, the final
cache entry is either `complete` with the computed rows attached or `failed`
with an error descriptor attached. -/
theorem claim5_task_terminal_status (rid : String)
    (outcome : Except String (List StoreReport)) (cache : ReportsCache)
    (hmem : (cache.lookup rid).isSome = true) :
    ((∃ rows, outcome = .ok rows ∧
        (generate_report_task rid outcome cache).lookup rid
          = some ⟨.complete, some (.inl rows)⟩) ∨
      (∃ e, outcome = .error e ∧
        (generate_report_task rid outcome cache).lookup rid
          = some ⟨.failed, some (.inr e)⟩)) ∧
      ((generate_report_task rid outcome cache).lookup rid).map ReportEntry.status
        ≠ some .running := by
  obtain ⟨en, hen⟩ := Option.isSome_iff_exists.1 hmem
  cases outcome with
  | ok rows =>
    have hfinal : (generate_report_task rid (.ok rows) cache).lookup rid
        = some ⟨.complete, some (.inl rows)⟩ := by
      unfold generate_report_task
      rw [lookup_cacheSetStatus, lookup_cacheSetData, lookup_cacheSetStatus, hen]
      rfl
    refine ⟨Or.inl ⟨rows, rfl, hfinal⟩, ?_⟩
    rw [hfinal]
    simp
  | error e =>
    have hfinal : (generate_report_task rid (.error e) cache).lookup rid
        = some ⟨.failed, some (.inr e)⟩ := by
      unfold generate_report_task
      rw [lookup_cacheSetData, lookup_cacheSetStatus, lookup_cacheSetStatus, hen]
      rfl
    refine ⟨Or.inr ⟨e, rfl, hfinal⟩, ?_⟩
    rw [hfinal]
    simp

/-- C5 (witness): a successful run over a cache holding the job in status
`running` ends with the job `complete` and its (empty) row list attached. -/
theorem claim5_witness :
    (generate_report_task "job-1" (Except.ok []) [("job-1", ⟨.running, none⟩)]).lookup
        "job-1" = some ⟨.complete, some (.inl [])⟩ := by
  rcases (claim5_task_terminal_status "job-1" (Except.ok [])
      [("job-1", ⟨.running, none⟩)] (by decide)).1 with ⟨rows, hok, hl⟩ | ⟨e, herr, _⟩
  · cases hok
    exact hl
  · cases herr

/-- C6: a store whose timeline for a window is empty — every observation of
the store lies strictly after the window's end — is assumed continuously
active: the accumulator returns the full business-hours overlap of the
window as uptime and zero downtime.  Consequently for a store with no
observations at all, `uptime_last_hour` is the ceiling of the business-hours
minutes of the trailing hour and `downtime_last_hour` is zero. -/
theorem claim6_empty_timeline_full_uptime (pz : String → Option ℚ) (db : DB)
    (sid : String) (ps pe off : ℚ) (bh : Schedule) (now : ℚ) :
    (ps ≤ pe → (∀ o ∈ db.store_status, o.store_id = sid → pe < o.timestamp_utc) →
      calculate_uptime_downtime_for_period db sid ps pe off bh
        = (calculate_overlap_minutes ps pe bh off, 0)) ∧
      ((∀ o ∈ db.store_status, o.store_id ≠ sid) →
        (generate_report_for_store pz db sid now).uptime_last_hour
            = ⌈calculate_overlap_minutes (now - 3600) now (get_store_config pz db sid).2
                (get_store_config pz db sid).1⌉ ∧
          (generate_report_for_store pz db sid now).downtime_last_hour = 0) := by
  have key : ∀ (qs qe qoff : ℚ) (qbh : Schedule), qs ≤ qe →
      (∀ o ∈ db.store_status, o.store_id = sid → qe < o.timestamp_utc) →
      calculate_uptime_downtime_for_period db sid qs qe qoff qbh
        = (calculate_overlap_minutes qs qe qbh qoff, 0) := by
    intro qs qe qoff qbh hse hobs
    have hwin : get_observations_in_window db sid qs qe = [] := by
      unfold get_observations_in_window
      have hfil : db.store_status.filter
          (fun o => o.store_id == sid && decide (qs ≤ o.timestamp_utc)
            && decide (o.timestamp_utc ≤ qe)) = [] := by
        rw [List.filter_eq_nil_iff]
        intro o ho
        simp only [Bool.and_eq_true, beq_iff_eq, decide_eq_true_eq, not_and]
        intro hand
        exact not_le.2 (hobs o ho hand.1)
      rw [hfil]
      rfl
    have hprior : get_latest_before db sid qs = none := by
      unfold get_latest_before
      have hfil : db.store_status.filter
          (fun o => o.store_id == sid && decide (o.timestamp_utc < qs)) = [] := by
        rw [List.filter_eq_nil_iff]
        intro o ho
        simp only [Bool.and_eq_true, beq_iff_eq, decide_eq_true_eq, not_and]
        intro h1 h2
        exact absurd (hobs o ho h1) (not_lt.2 (by linarith))
      rw [hfil]
      rfl
    have htl : get_status_for_period db sid qs qe = [] := by
      unfold get_status_for_period
      rw [hprior, hwin]
    unfold calculate_uptime_downtime_for_period
    rw [htl]
  constructor
  · intro hse hobs
    exact key ps pe off bh hse hobs
  · intro hstore
    have hobs' : ∀ o ∈ db.store_status, o.store_id = sid → now < o.timestamp_utc :=
      fun o ho h => absurd h (hstore o ho)
    have h1 := key (now - 3600) now (get_store_config pz db sid).1
      (get_store_config pz db sid).2 (by linarith) hobs'
    constructor
    · show Rat.ceil (calculate_uptime_downtime_for_period db sid (now - 3600) now
          (get_store_config pz db sid).1 (get_store_config pz db sid).2).1 = _
      rw [h1, ratCeil_eq_intCeil]
    · show Rat.ceil (calculate_uptime_downtime_for_period db sid (now - 3600) now
          (get_store_config pz db sid).1 (get_store_config pz db sid).2).2 = 0
      rw [h1]
      show Rat.ceil 0 = 0
      rw [ratCeil_eq_intCeil, Int.ceil_zero]

/-- C6 (witness): the empty-timeline rule at a store whose only observation
lies after the window, and the hour-window consequence for a store with no
observations at all. -/
theorem claim6_witness :
    calculate_uptime_downtime_for_period (⟨[⟨"s", 200, .active⟩], [], []⟩ : DB)
        "s" 0 100 0 [] = (calculate_overlap_minutes 0 100 [] 0, 0) ∧
      (generate_report_for_store (fun _ => none) (⟨[], [], []⟩ : DB) "s" 86400).uptime_last_hour
          = ⌈calculate_overlap_minutes (86400 - 3600) 86400
              (get_store_config (fun _ => none) (⟨[], [], []⟩ : DB) "s").2
              (get_store_config (fun _ => none) (⟨[], [], []⟩ : DB) "s").1⌉ ∧
        (generate_report_for_store (fun _ => none) (⟨[], [], []⟩ : DB) "s"
            86400).downtime_last_hour = 0 :=
  ⟨(claim6_empty_timeline_full_uptime (fun _ => none) (⟨[⟨"s", 200, .active⟩], [], []⟩ : DB)
      "s" 0 100 0 [] 86400).1 (by norm_num) (by decide),
    (claim6_empty_timeline_full_uptime (fun _ => none) (⟨[], [], []⟩ : DB)
      "s" 0 100 0 [] 86400).2 (by decide)⟩

set_option maxRecDepth 1000000 in
/-- C9: the report's hour-window fields are the ceiling of the raw
fractional minutes and its day/week-window fields the ceiling of the raw
minutes divided by 60; in particular, for the concrete store `db9` whose raw
day-window uptime is exactly `119.2` minutes, `uptime_last_day` is
`⌈119.2 / 60⌉ = 2`. -/
theorem claim9_rounding :
    (∀ (pz : String → Option ℚ) (db : DB) (sid : String) (now : ℚ),
        (generate_report_for_store pz db sid now).uptime_last_hour
            = ⌈(calculate_uptime_downtime_for_period db sid (now - 3600) now
                (get_store_config pz db sid).1 (get_store_config pz db sid).2).1⌉ ∧
          (generate_report_for_store pz db sid now).downtime_last_hour
            = ⌈(calculate_uptime_downtime_for_period db sid (now - 3600) now
                (get_store_config pz db sid).1 (get_store_config pz db sid).2).2⌉ ∧
          (generate_report_for_store pz db sid now).uptime_last_day
            = ⌈(calculate_uptime_downtime_for_period db sid (now - 86400) now
                (get_store_config pz db sid).1 (get_store_config pz db sid).2).1 / 60⌉ ∧
          (generate_report_for_store pz db sid now).downtime_last_day
            = ⌈(calculate_uptime_downtime_for_period db sid (now - 86400) now
                (get_store_config pz db sid).1 (get_store_config pz db sid).2).2 / 60⌉ ∧
          (generate_report_for_store pz db sid now).uptime_last_week
            = ⌈(calculate_uptime_downtime_for_period db sid (now - 604800) now
                (get_store_config pz db sid).1 (get_store_config pz db sid).2).1 / 60⌉ ∧
          (generate_report_for_store pz db sid now).downtime_last_week
            = ⌈(calculate_uptime_downtime_for_period db sid (now - 604800) now
                (get_store_config pz db sid).1 (get_store_config pz db sid).2).2 / 60⌉) ∧
      (calculate_uptime_downtime_for_period db9 "s" 0 86400
          (get_store_config (fun _ => none) db9 "s").1
          (get_store_config (fun _ => none) db9 "s").2).1 = 596 / 5 ∧
      (generate_report_for_store (fun _ => none) db9 "s" 86400).uptime_last_day = 2 := by
  refine ⟨?_, by decide, by decide⟩
  intro pz db sid now
  refine ⟨?_, ?_, ?_, ?_, ?_, ?_⟩ <;>
    · show Rat.ceil _ = _
      rw [ratCeil_eq_intCeil]

end StoreMonitoring
